import Mathlib

/-!
Verification of the maintenance scripts of the makro.tepedu.dk textbook
repository against its natural-language specification.

The Python sources are shallowly embedded as executable functions over
`List Char` (a faithful model of a Python `str` as a sequence of unicode
characters).  Regular-expression operations of the sources are embedded as
deterministic scanners implementing the exact leftmost / lazy / greedy
semantics of the patterns that appear in the code.  Scanners whose recursion
consumes a variable number of characters per step use an explicit fuel
argument; the top-level wrappers pass `length + 1` fuel, which is always
sufficient because every step consumes at least one character, so the fueled
functions agree with the Python originals on every input.

File writes are modeled by returning the new content; a run that aborts
before writing is modeled as `Option.none`.
-/

/-- The six ASCII whitespace characters accepted by Python's `str.strip` and
by the regex class backslash-s (on the inputs of interest; exotic unicode
whitespace is not modeled). -/
def isPySpace (c : Char) : Bool :=
  c = ' ' || c = '\t' || c = '\n' || c = '\r' || c = '\x0b' || c = '\x0c'

/-- Python `str.strip()`. -/
def pyStrip (l : List Char) : List Char :=
  ((l.dropWhile isPySpace).reverse.dropWhile isPySpace).reverse

/-- Python `str.rstrip()` (used to model a trailing backslash-s-star anchor). -/
def pyRStrip (l : List Char) : List Char :=
  (l.reverse.dropWhile isPySpace).reverse

/-- Python `needle in hay` substring test. -/
def containsSub (needle : List Char) : List Char → Bool
  | [] => needle.isPrefixOf []
  | c :: rest => needle.isPrefixOf (c :: rest) || containsSub needle rest

/-- Split a string at the first occurrence of `needle`: returns the part
before and the part after the occurrence.  Models the leftmost match of a
literal pattern. -/
def splitFirst (needle : List Char) : List Char → Option (List Char × List Char)
  | [] => if needle.isPrefixOf [] then some ([], []) else none
  | c :: rest =>
    if needle.isPrefixOf (c :: rest) then some ([], (c :: rest).drop needle.length)
    else
      match splitFirst needle rest with
      | some p => some (c :: p.1, p.2)
      | none => none

/-- Fueled scanner for Python `str.replace` (and `re.sub` with a literal
pattern): replace every non-overlapping occurrence, scanning left to right. -/
def replaceAllAux (needle repl : List Char) : Nat → List Char → List Char
  | 0, s => s
  | fuel + 1, s =>
    match splitFirst needle s with
    | none => s
    | some (a, b) => a ++ repl ++ replaceAllAux needle repl fuel b

/-- Python `str.replace(needle, repl)` for a non-empty `needle`. -/
def replaceAll (needle repl s : List Char) : List Char :=
  replaceAllAux needle repl (s.length + 1) s

/-- Fueled scanner for Python `str.count` (non-overlapping occurrences). -/
def countSubAux (needle : List Char) : Nat → List Char → Nat
  | 0, _ => 0
  | _ + 1, [] => 0
  | fuel + 1, c :: rest =>
    if needle.isPrefixOf (c :: rest) then
      1 + countSubAux needle fuel ((c :: rest).drop needle.length)
    else
      countSubAux needle fuel rest

/-- Python `str.count(needle)` for a non-empty `needle`. -/
def countSub (needle l : List Char) : Nat :=
  countSubAux needle (l.length + 1) l

/-- ASCII lower-casing of one character (models `re.IGNORECASE` on the
ASCII-only patterns of the sources). -/
def toLowerChar (c : Char) : Char :=
  if 'A' ≤ c ∧ c ≤ 'Z' then Char.ofNat (c.toNat + 32) else c

/-- Case-insensitive prefix test; the pattern argument is given in lower
case. -/
def ciStarts : List Char → List Char → Bool
  | [], _ => true
  | _ :: _, [] => false
  | p :: ps, c :: cs => (toLowerChar c = p) && ciStarts ps cs

/-- Split at the first case-insensitive occurrence of `pat` (given in lower
case): part before, part after. -/
def splitFirstCI (pat : List Char) : List Char → Option (List Char × List Char)
  | [] => if ciStarts pat [] then some ([], []) else none
  | c :: rest =>
    if ciStarts pat (c :: rest) then some ([], (c :: rest).drop pat.length)
    else
      match splitFirstCI pat rest with
      | some p => some (c :: p.1, p.2)
      | none => none

/-- Index of the first occurrence of a character. -/
def findChar (ch : Char) : List Char → Option Nat
  | [] => none
  | c :: rest => if c = ch then some 0 else (findChar ch rest).map (· + 1)

/-!
## Depth Auditor (`check_depth.py`)

Line-by-line scan counting `<div` opens against `</div>` closes, printing a
record for every line containing one of the heading markers `<h2>`, `<h3>`,
`<h4>`.  A record is `(line number, depth at the heading, line text)`.
-/

/-- `'<h3>' in line or '<h4>' in line or '<h2>' in line` of `check_depth.py`. -/
def hasHeading (line : List Char) : Bool :=
  containsSub "<h3>".toList line || containsSub "<h4>".toList line ||
    containsSub "<h2>".toList line

/-- The scan loop of `check_depth.py`: threads the running depth through the
lines, collecting one record per heading line.  In the branch where the line
contains `<div` or `</div>` markers the recorded depth is the depth before
the line's update (`old_depth` in the source); otherwise the depth is
unchanged. -/
def depthScanAux : Nat → Int → List (List Char) → Int × List (Nat × Int × List Char)
  | _, d, [] => (d, [])
  | n, d, line :: rest =>
    let opens : Int := countSub "<div".toList line
    let closes : Int := countSub "</div>".toList line
    if opens > 0 || closes > 0 then
      let d2 := d + opens - closes
      let r := depthScanAux (n + 1) d2 rest
      if hasHeading line then (r.1, (n, d, line) :: r.2) else (r.1, r.2)
    else
      let r := depthScanAux (n + 1) d rest
      if hasHeading line then (r.1, (n, d, line) :: r.2) else (r.1, r.2)

/-- Depth audit of a document given as its list of lines: final depth and the
heading records, with 1-based line numbers as in the source. -/
def depthScan (lines : List (List Char)) : Int × List (Nat × Int × List Char) :=
  depthScanAux 1 0 lines

/-!
## Segmenter (`rebuild_kap2.py`)

Pipeline: locate the first `<article>.*?</article>` region (abort without
writing if absent), split it on heading opening tags
`<(?:h1|h2|h3|h4).*?>` (case-insensitive, the lazy dot does not cross
newlines), clean each body segment by repeatedly stripping an outer
`info-box` wrapper, re-wrap bodies whose heading delimiter does not contain
`"Quiz"` or `"h1"`, re-append a missing `</article>`, then splice the new
article back into the document through a placeholder.
-/

def artOpen : List Char := "<article>".toList

def artClose : List Char := "</article>".toList

/-- `re.search(r'(<article>.*?</article>)', content, re.DOTALL)`: the part
before the region, the part between the markers, the part after. -/
def findArticleSplit (s : List Char) : Option (List Char × List Char × List Char) :=
  match splitFirst artOpen s with
  | none => none
  | some (pre, r) =>
    match splitFirst artClose r with
    | none => none
    | some (mid, post) => some (pre, mid, post)

/-- Match of `<(?:h1|h2|h3|h4).*?>` (case-insensitive, `.` not matching a
newline) anchored at the head of the list: the length of the lazy match,
ending at the first `>` after the tag letters provided no newline comes
before it.  Helper: first `>` with no earlier newline. -/
def findGt : List Char → Option Nat
  | [] => none
  | c :: rest =>
    if c = '>' then some 0
    else if c = '\n' then none
    else (findGt rest).map (· + 1)

/-- Length of the heading-opening-tag match anchored at the head, if any. -/
def headOpenLen : List Char → Option Nat
  | '<' :: c :: d :: rest =>
    if (c = 'h' || c = 'H') && (d = '1' || d = '2' || d = '3' || d = '4') then
      (findGt rest).map (· + 4)
    else none
  | _ => none

/-- `true` when no heading-opening-tag match starts anywhere in the list. -/
def noHeads : List Char → Bool
  | [] => true
  | c :: rest => (headOpenLen (c :: rest)).isNone && noHeads rest

/-- Fueled scanner for
`re.split(r'(<(?:h1|h2|h3|h4).*?>)', article, flags=re.IGNORECASE)`:
returns the alternating list of segments and captured delimiters, segments
at even and delimiters at odd indices. -/
def splitHeadingsAux : Nat → List Char → List Char → List (List Char)
  | 0, acc, l => [acc.reverse ++ l]
  | _ + 1, acc, [] => [acc.reverse]
  | fuel + 1, acc, c :: rest =>
    match headOpenLen (c :: rest) with
    | some k =>
      acc.reverse :: (c :: rest).take k :: splitHeadingsAux fuel [] ((c :: rest).drop k)
    | none => splitHeadingsAux fuel (c :: acc) rest

/-- The heading split of the Segmenter. -/
def splitHeadings (s : List Char) : List (List Char) :=
  splitHeadingsAux (s.length + 1) [] s

def infoOpenTag : List Char := "<div class=\"info-box\">".toList

def closeDivTag : List Char := "</div>".toList

/-- The anchored opening-wrapper parse shared by the wrapper-strip loop and
the lone-opener removal: `^<div\s+class="info-box[^"]*">`.  Returns the rest
of the list after the matched opening tag. -/
def stripInfoOpen (body : List Char) : Option (List Char) :=
  match body with
  | '<' :: 'd' :: 'i' :: 'v' :: rest =>
    if isPySpace (rest.headD 'x') then
      let r2 := rest.dropWhile isPySpace
      if ("class=\"info-box".toList).isPrefixOf r2 then
        let r3 := r2.drop 15
        match findChar '"' r3 with
        | some j =>
          match r3.drop (j + 1) with
          | '>' :: r4 => some r4
          | _ => none
        | none => none
      else none
    else none
  | _ => none

/-- One attempt of
`re.match(r'^<div\s+class="info-box[^"]*">\s*(.*)\s*</div>$', body, re.DOTALL)`:
the greedy group runs to the last possible position, so on success `group(1)`
is the rest of the body after the opening tag, without its maximal leading
whitespace run and without the final `</div>` (a single trailing newline
being tolerated by the `$` anchor). -/
def infoBoxMatch (body : List Char) : Option (List Char) :=
  match stripInfoOpen body with
  | none => none
  | some t =>
    let t2 := t.dropWhile isPySpace
    if closeDivTag.isSuffixOf t2 then some (t2.take (t2.length - 6))
    else if (closeDivTag ++ ['\n']).isSuffixOf t2 then some (t2.take (t2.length - 7))
    else none

/-- The `while True` wrapper-strip loop of the Segmenter: repeatedly replace
the body by the stripped match group until the pattern no longer matches. -/
def stripInfoLoopAux : Nat → List Char → List Char
  | 0, body => body
  | fuel + 1, body =>
    match infoBoxMatch body with
    | some inner => stripInfoLoopAux fuel (pyStrip inner)
    | none => body

/-- The wrapper-strip loop at sufficient fuel (each successful iteration
shortens the body). -/
def stripInfoLoop (body : List Char) : List Char :=
  stripInfoLoopAux (body.length + 1) body

/-- `re.sub(r'^<div\s+class="info-box[^"]*">', '', body)`: remove a lone
left-over opening wrapper tag at the very start. -/
def loneStrip (body : List Char) : List Char :=
  match stripInfoOpen body with
  | some r => r
  | none => body

/-- The per-segment body cleaning of the Segmenter: strip, the wrapper-strip
loop, lone-opener removal, strip. -/
def processBody (body : List Char) : List Char :=
  pyStrip (loneStrip (stripInfoLoop (pyStrip body)))

/-- The wrap decision and wrapping: bodies whose heading delimiter contains
`"Quiz"` or `"h1"` are emitted raw, all others are wrapped in one
`info-box` block.  The heading delimiter captured by the split is only the
opening tag, so the membership tests inspect the opening tag text. -/
def wrapBody (heading body : List Char) : List Char :=
  if containsSub "Quiz".toList heading || containsSub "h1".toList heading then
    processBody body ++ ['\n']
  else
    infoOpenTag ++ ['\n'] ++ processBody body ++ ['\n'] ++ closeDivTag ++ ['\n']

/-- The reassembly loop over `parts[1:]`: each heading followed by a newline
and its processed body (an absent trailing body is treated as empty). -/
def assembleParts : List (List Char) → List Char
  | [] => []
  | [h] => h ++ ['\n'] ++ wrapBody h []
  | h :: b :: rest => h ++ ['\n'] ++ wrapBody h b ++ assembleParts rest

/-- The rebuilt article: the pre-heading segment followed by the reassembled
heading/body chunks. -/
def newArticle (article : List Char) : List Char :=
  match splitHeadings article with
  | [] => []
  | p0 :: rest => p0 ++ assembleParts rest

/-- The closing fix of the Segmenter: append `</article>` unless the result
already ends with it, possibly up to trailing whitespace. -/
def fixClose (na : List Char) : List Char :=
  if artClose.isSuffixOf na then na
  else if artClose.isSuffixOf (pyRStrip na) then na
  else na ++ artClose

def placeholderTok : List Char := "@@@ARTICLE_PLACEHOLDER@@@".toList

/-- Fueled scanner for
`re.sub(r'<article>.*?</article>', placeholder, content, re.DOTALL)`:
replace every article region by the placeholder. -/
def subAllArticleAux : Nat → List Char → List Char
  | 0, s => s
  | fuel + 1, s =>
    match findArticleSplit s with
    | none => s
    | some (pre, _, post) => pre ++ placeholderTok ++ subAllArticleAux fuel post

/-- All article regions replaced by the placeholder. -/
def subAllArticle (s : List Char) : List Char :=
  subAllArticleAux (s.length + 1) s

/-- The whole Segmenter run of `rebuild_kap2.py` on a document: `none` when
no article region exists (the script prints the error and exits before
writing, leaving the file unchanged), otherwise the rewritten document that
is written back to disk. -/
def segmenter (content : List Char) : Option (List Char) :=
  match findArticleSplit content with
  | none => none
  | some (_, mid, _) =>
    let article := artOpen ++ mid ++ artClose
    let na := fixClose (newArticle article)
    some (replaceAll placeholderTok na (subAllArticle content))

/-!
## Span Stripper (`clean_glossary.py`)

Within each `podcast-section` block (lazy up to `</div>\s*</div>`) and each
`quiz-container` block (lazy up to `</div>`), every
`<span class="legal-term"[^>]*>(.*?)</span>` occurrence is replaced by its
captured inner text (the inner lazy dot does not cross newlines, as that
sub is compiled without `re.DOTALL`).  `clean_file` writes only when the
content changed and returns whether it did.
-/

def spanOpenTok : List Char := "<span class=\"legal-term\"".toList

def podOpenTok : List Char := "<div class=\"podcast-section\">".toList

def quizOpenTok : List Char := "<div class=\"quiz-container\">".toList

def closeSpanTok : List Char := "</span>".toList

/-- The lazy `(.*?)</span>` with `.` not matching a newline: inner text and
rest after the closing tag, failing on a newline before any `</span>`. -/
def findCloseSpanNoNl : List Char → Option (List Char × List Char)
  | [] => none
  | c :: rest =>
    if closeSpanTok.isPrefixOf (c :: rest) then some ([], (c :: rest).drop 7)
    else if c = '\n' then none
    else
      match findCloseSpanNoNl rest with
      | some p => some (c :: p.1, p.2)
      | none => none

/-- Fueled scanner for the legal-term sub inside a block: replace each
matched span by its inner text. -/
def spanSubAux : Nat → List Char → List Char
  | 0, l => l
  | _ + 1, [] => []
  | fuel + 1, c :: rest =>
    if spanOpenTok.isPrefixOf (c :: rest) then
      match findChar '>' ((c :: rest).drop 24) with
      | some j =>
        match findCloseSpanNoNl ((c :: rest).drop (24 + j + 1)) with
        | some (inner, after) => inner ++ spanSubAux fuel after
        | none => c :: spanSubAux fuel rest
      | none => c :: spanSubAux fuel rest
    else c :: spanSubAux fuel rest

/-- `remove_legal_terms` of `clean_glossary.py` applied to one block. -/
def spanSub (block : List Char) : List Char :=
  spanSubAux (block.length + 1) block

/-- The lazy `.*?</div>\s*</div>` completion for the podcast-section block:
everything consumed up to and including the close pair, and the rest. -/
def findClosePair : List Char → Option (List Char × List Char)
  | [] => none
  | c :: rest =>
    if closeDivTag.isPrefixOf (c :: rest) then
      let r2 := (c :: rest).drop 6
      let r3 := r2.dropWhile isPySpace
      if closeDivTag.isPrefixOf r3 then
        some (closeDivTag ++ r2.takeWhile isPySpace ++ closeDivTag, r3.drop 6)
      else
        match findClosePair rest with
        | some p => some (c :: p.1, p.2)
        | none => none
    else
      match findClosePair rest with
      | some p => some (c :: p.1, p.2)
      | none => none

/-- Fueled scanner for
`re.sub(r'<div class="podcast-section">.*?</div>\s*</div>', remove_legal_terms, content, re.DOTALL)`. -/
def podcastSubAux : Nat → List Char → List Char
  | 0, l => l
  | _ + 1, [] => []
  | fuel + 1, c :: rest =>
    if podOpenTok.isPrefixOf (c :: rest) then
      match findClosePair ((c :: rest).drop 29) with
      | some (upToClose, after) =>
        spanSub (podOpenTok ++ upToClose) ++ podcastSubAux fuel after
      | none => c :: podcastSubAux fuel rest
    else c :: podcastSubAux fuel rest

def podcastSub (s : List Char) : List Char :=
  podcastSubAux (s.length + 1) s

/-- Fueled scanner for
`re.sub(r'<div class="quiz-container">.*?</div>', remove_legal_terms, new_content, re.DOTALL)`. -/
def quizSubAux : Nat → List Char → List Char
  | 0, l => l
  | _ + 1, [] => []
  | fuel + 1, c :: rest =>
    if quizOpenTok.isPrefixOf (c :: rest) then
      match splitFirst closeDivTag ((c :: rest).drop 28) with
      | some (inner, after) =>
        spanSub (quizOpenTok ++ inner ++ closeDivTag) ++ quizSubAux fuel after
      | none => c :: quizSubAux fuel rest
    else c :: quizSubAux fuel rest

def quizSub (s : List Char) : List Char :=
  quizSubAux (s.length + 1) s

/-- The content transformation of `clean_file`: the podcast-section sub
followed by the quiz-container sub. -/
def cleanContent (content : List Char) : List Char :=
  quizSub (podcastSub content)

/-- `clean_file`: returns whether a change occurred and the content on disk
afterwards (rewritten only when it changed). -/
def clean_file (content : List Char) : Bool × List Char :=
  let n := cleanContent content
  if n = content then (false, content) else (true, n)

/-!
## Text Extractor (`extract_chapter_text.py`)

`extract_article_text` takes the first `<article>(.*?)</article>` group (or
returns the empty string), replaces closing block tags by newlines, removes
script and style regions, strips all tags to spaces, decodes `&nbsp;`,
collapses whitespace runs to single spaces, collapses space-padded newlines
to bare newlines, and strips the ends.
-/

/-- `re.search(r'<article>(.*?)</article>', html, re.DOTALL)`: group 1. -/
def findArticleInner (html : List Char) : Option (List Char) :=
  match splitFirst artOpen html with
  | none => none
  | some (_, r) =>
    match splitFirst artClose r with
    | none => none
    | some (mid, _) => some mid

/-- The closing block tags of `</(p|div|h[1-6]|li|tr|th|td)>`, lower case. -/
def closeTagToks : List (List Char) :=
  ["</p>", "</div>", "</h1>", "</h2>", "</h3>", "</h4>", "</h5>", "</h6>",
    "</li>", "</tr>", "</th>", "</td>"].map String.toList

/-- Length of the case-insensitive closing-block-tag match anchored at the
head, if any. -/
def matchCloseTag (l : List Char) : Option Nat :=
  closeTagToks.findSome? fun t => if ciStarts t l then some t.length else none

/-- Fueled scanner for
`re.sub(r'</(p|div|h[1-6]|li|tr|th|td)>', '\n', raw, flags=re.IGNORECASE)`. -/
def blockCloseSubAux : Nat → List Char → List Char
  | 0, l => l
  | _ + 1, [] => []
  | fuel + 1, c :: rest =>
    match matchCloseTag (c :: rest) with
    | some k => '\n' :: blockCloseSubAux fuel ((c :: rest).drop k)
    | none => c :: blockCloseSubAux fuel rest

def blockCloseSub (s : List Char) : List Char :=
  blockCloseSubAux (s.length + 1) s

/-- Fueled scanner for `re.sub(r'<script[^>]*>.*?</script>', '', raw,
flags=re.DOTALL | re.IGNORECASE)`: `openTok` and `closeTok` are the lower
case literals around `[^>]*>` and the lazy region. -/
def regionSubAux (openTok closeTok : List Char) : Nat → List Char → List Char
  | 0, l => l
  | _ + 1, [] => []
  | fuel + 1, c :: rest =>
    if ciStarts openTok (c :: rest) then
      match findChar '>' ((c :: rest).drop openTok.length) with
      | some j =>
        match splitFirstCI closeTok ((c :: rest).drop (openTok.length + j + 1)) with
        | some (_, after) => regionSubAux openTok closeTok fuel after
        | none => c :: regionSubAux openTok closeTok fuel rest
      | none => c :: regionSubAux openTok closeTok fuel rest
    else c :: regionSubAux openTok closeTok fuel rest

def scriptSub (s : List Char) : List Char :=
  regionSubAux "<script".toList "</script>".toList (s.length + 1) s

def styleSub (s : List Char) : List Char :=
  regionSubAux "<style".toList "</style>".toList (s.length + 1) s

/-- Fueled scanner for `re.sub(r'<[^>]+>', ' ', raw)`: every tag-like region
becomes a single space (at least one non-`>` character is required between
the brackets; the character class crosses newlines). -/
def tagSubAux : Nat → List Char → List Char
  | 0, l => l
  | _ + 1, [] => []
  | fuel + 1, c :: rest =>
    if c = '<' then
      match findChar '>' rest with
      | some j =>
        if j ≥ 1 then ' ' :: tagSubAux fuel (rest.drop (j + 1))
        else c :: tagSubAux fuel rest
      | none => c :: tagSubAux fuel rest
    else c :: tagSubAux fuel rest

def tagSub (s : List Char) : List Char :=
  tagSubAux (s.length + 1) s

/-- `re.sub(r'&nbsp;', ' ', text)`. -/
def nbspSub (s : List Char) : List Char :=
  replaceAll "&nbsp;".toList [' '] s

/-- State-machine scanner for `re.sub(r'\s+', ' ', text)`: every maximal run
of whitespace becomes a single space.  The flag records being inside a run
whose space has already been emitted. -/
def collapseWsAux : Bool → List Char → List Char
  | _, [] => []
  | inRun, c :: rest =>
    if isPySpace c then
      if inRun then collapseWsAux true rest else ' ' :: collapseWsAux true rest
    else c :: collapseWsAux false rest

def collapseWs (s : List Char) : List Char :=
  collapseWsAux false s

/-- State-machine scanner for `re.sub(r' *\n *', '\n', text)`: a run of
spaces is pending (counted) until either a newline consumes it (the match's
leading spaces), a non-space flushes it, or the end flushes it; after an
emitted newline the following spaces are consumed as the match's greedy
trailing spaces. -/
def padNlAux : Bool → Nat → List Char → List Char
  | _, k, [] => List.replicate k ' '
  | eat, k, c :: rest =>
    if c = '\n' then '\n' :: padNlAux true 0 rest
    else if c = ' ' then
      if eat then padNlAux true 0 rest else padNlAux false (k + 1) rest
    else List.replicate k ' ' ++ c :: padNlAux false 0 rest

def padNl (s : List Char) : List Char :=
  padNlAux false 0 s

/-- `extract_article_text` of `extract_chapter_text.py`. -/
def extract_article_text (html : List Char) : List Char :=
  match findArticleInner html with
  | none => []
  | some raw =>
    pyStrip (padNl (collapseWs (nbspSub (tagSub (styleSub (scriptSub (blockCloseSub raw)))))))

/-!
## Heading-text extraction (specification instrument)
-/

/-- Modelled from the spec: the instrument of the heading-preservation
property, "the multiset of heading texts (levels 2-4) extracted" from a
document — the text between each heading opening tag `<hN ...>` (N in 2..4)
and its matching `</hN>`, in document order.  This extractor is not itself
part of the sources; it follows the spec's words. -/
def hTextMatch : List Char → Option (List Char × List Char)
  | '<' :: 'h' :: d :: rest =>
    if d = '2' || d = '3' || d = '4' then
      match findChar '>' rest with
      | some j =>
        match splitFirst ("</h".toList ++ [d] ++ ">".toList) (rest.drop (j + 1)) with
        | some (txt, after) => some (txt, after)
        | none => none
      | none => none
    else none
  | _ => none

/-- Modelled from the spec: fueled scan collecting all level-2..4 heading
texts in order. -/
def headingTextsAux : Nat → List Char → List (List Char)
  | 0, _ => []
  | _ + 1, [] => []
  | fuel + 1, c :: rest =>
    match hTextMatch (c :: rest) with
    | some (txt, after) => txt :: headingTextsAux fuel after
    | none => headingTextsAux fuel rest

/-- Modelled from the spec: the list (multiset) of heading texts, levels
2-4. -/
def headingTextsSpec (doc : List Char) : List (List Char) :=
  headingTextsAux (doc.length + 1) doc

/-!
## Helper lemmas
-/

theorem splitFirst_eq {n : List Char} :
    ∀ (h a b : List Char), splitFirst n h = some (a, b) → h = a ++ n ++ b := by
  intro h
  induction h with
  | nil =>
    intro a b hs
    cases n with
    | nil => simp [splitFirst, List.isPrefixOf] at hs; simp [hs.1, hs.2]
    | cons x xs => simp [splitFirst, List.isPrefixOf] at hs
  | cons c rest ih =>
    intro a b hs
    by_cases hp : n.isPrefixOf (c :: rest)
    · rw [splitFirst, if_pos hp] at hs
      obtain ⟨t, ht⟩ := List.isPrefixOf_iff_prefix.mp hp
      simp at hs
      obtain ⟨ha, hb⟩ := hs
      subst ha
      subst hb
      rw [← ht, List.drop_left]
      simp
    · rw [splitFirst, if_neg hp] at hs
      cases hr : splitFirst n rest with
      | none => rw [hr] at hs; simp at hs
      | some p =>
        rw [hr] at hs
        obtain ⟨a2, b2⟩ := p
        simp at hs
        have := ih a2 b2 hr
        rw [← hs.1, ← hs.2, this]
        simp

theorem findArticleSplit_eq {s pre mid post : List Char}
    (hs : findArticleSplit s = some (pre, mid, post)) :
    s = pre ++ artOpen ++ mid ++ artClose ++ post := by
  unfold findArticleSplit at hs
  cases h1 : splitFirst artOpen s with
  | none => rw [h1] at hs; simp at hs
  | some p =>
    obtain ⟨pre2, r⟩ := p
    rw [h1] at hs
    simp only [Option.some.injEq] at hs
    cases h2 : splitFirst artClose r with
    | none => rw [h2] at hs; simp at hs
    | some q =>
      obtain ⟨mid2, post2⟩ := q
      rw [h2] at hs
      simp at hs
      obtain ⟨e1, e2, e3⟩ := hs
      subst e1; subst e2; subst e3
      have hs1 := splitFirst_eq _ _ _ h1
      have hs2 := splitFirst_eq _ _ _ h2
      rw [hs1, hs2]
      simp [List.append_assoc]

theorem splitHeadingsAux_noHeads :
    ∀ (fuel : Nat) (acc l : List Char), l.length < fuel → noHeads l = true →
      splitHeadingsAux fuel acc l = [acc.reverse ++ l] := by
  intro fuel
  induction fuel with
  | zero => intro acc l hl _; exact absurd hl (Nat.not_lt_zero _)
  | succ f ih =>
    intro acc l hl hn
    cases l with
    | nil => simp [splitHeadingsAux]
    | cons c rest =>
      rw [noHeads, Bool.and_eq_true, Option.isNone_iff_eq_none] at hn
      rw [splitHeadingsAux, hn.1]
      rw [ih (c :: acc) rest (by simp at hl; omega) hn.2]
      simp

theorem splitHeadings_noHeads (l : List Char) (h : noHeads l = true) :
    splitHeadings l = [l] := by
  unfold splitHeadings
  rw [splitHeadingsAux_noHeads (l.length + 1) [] l (Nat.lt_succ_self _) h]
  simp

theorem newArticle_noHeads (l : List Char) (h : noHeads l = true) :
    newArticle l = l := by
  unfold newArticle
  rw [splitHeadings_noHeads l h]
  simp [assembleParts]

theorem fixClose_of_artClose (l : List Char) :
    fixClose (l ++ artClose) = l ++ artClose := by
  unfold fixClose
  have h : artClose.isSuffixOf (l ++ artClose) = true := by
    simp [List.isSuffixOf_iff_suffix]
  rw [h]
  simp

theorem subAllArticleAux_single (fuel : Nat) (s pre mid post : List Char)
    (h1 : findArticleSplit s = some (pre, mid, post))
    (h3 : findArticleSplit post = none) :
    subAllArticleAux (fuel + 1) s = pre ++ placeholderTok ++ post := by
  have hpost : ∀ g, subAllArticleAux g post = post := by
    intro g
    cases g with
    | zero => rfl
    | succ g2 => simp [subAllArticleAux, h3]
  simp [subAllArticleAux, h1, hpost]

theorem replaceAllAux_single (fuel : Nat) (repl pre post : List Char)
    (h4 : splitFirst placeholderTok (pre ++ placeholderTok ++ post) = some (pre, post))
    (h5 : splitFirst placeholderTok post = none) :
    replaceAllAux placeholderTok repl (fuel + 1) (pre ++ placeholderTok ++ post)
      = pre ++ repl ++ post := by
  have hpost : ∀ g, replaceAllAux placeholderTok repl g post = post := by
    intro g
    cases g with
    | zero => rfl
    | succ g2 => simp [replaceAllAux, h5]
  have h42 : splitFirst placeholderTok (pre ++ (placeholderTok ++ post)) = some (pre, post) := by
    rw [← List.append_assoc]; exact h4
  simp [replaceAllAux, h42, hpost]

theorem collapseWsAux_no_newline : ∀ (l : List Char) (b : Bool), '\n' ∉ collapseWsAux b l := by
  intro l
  induction l with
  | nil => intro b; simp [collapseWsAux]
  | cons c rest ih =>
    intro b
    by_cases hc : isPySpace c
    · cases b <;> simp [collapseWsAux, hc, ih]
    · have hcn : ¬ ('\n' = c) := by
        intro e; rw [← e] at hc; simp [isPySpace] at hc
      simp [collapseWsAux, hc, ih, hcn]

theorem padNlAux_no_newline :
    ∀ (l : List Char) (eat : Bool) (k : Nat), '\n' ∉ l → '\n' ∉ padNlAux eat k l := by
  intro l
  induction l with
  | nil =>
    intro eat k _
    simp [padNlAux, List.mem_replicate]
  | cons c rest ih =>
    intro eat k h
    have hc : ¬ (c = '\n') := by intro e; exact h (by simp [e])
    have hr : '\n' ∉ rest := fun m => h (List.mem_cons_of_mem _ m)
    by_cases hsp : c = ' '
    · cases eat <;> simp [padNlAux, hc, hsp] <;> exact ih _ _ hr
    · simp [padNlAux, hc, hsp, List.mem_replicate, ih _ _ hr]
      intro e; exact hc e.symm

theorem pyStrip_subset (c : Char) (l : List Char) (h : c ∈ pyStrip l) : c ∈ l := by
  unfold pyStrip at h
  rw [List.mem_reverse] at h
  have h2 := (List.dropWhile_suffix isPySpace).subset h
  rw [List.mem_reverse] at h2
  exact (List.dropWhile_suffix isPySpace).subset h2

theorem podcastSubAux_no_marker :
    ∀ (l : List Char) (f : Nat), containsSub podOpenTok l = false → podcastSubAux f l = l := by
  intro l
  induction l with
  | nil => intro f _; cases f <;> rfl
  | cons c rest ih =>
    intro f h
    rw [containsSub, Bool.or_eq_false_iff] at h
    cases f with
    | zero => rfl
    | succ g => simp [podcastSubAux, h.1, ih g h.2]

theorem quizSubAux_no_marker :
    ∀ (l : List Char) (f : Nat), containsSub quizOpenTok l = false → quizSubAux f l = l := by
  intro l
  induction l with
  | nil => intro f _; cases f <;> rfl
  | cons c rest ih =>
    intro f h
    rw [containsSub, Bool.or_eq_false_iff] at h
    cases f with
    | zero => rfl
    | succ g => simp [quizSubAux, h.1, ih g h.2]

theorem cleanContent_no_marker (c : List Char)
    (hp : containsSub podOpenTok c = false) (hq : containsSub quizOpenTok c = false) :
    cleanContent c = c := by
  unfold cleanContent podcastSub quizSub
  rw [podcastSubAux_no_marker c _ hp, quizSubAux_no_marker c _ hq]

/-!
## Claim theorems
-/

/-- Claim C1: the Segmenter does not preserve heading texts.  On the document
`<article><h2>T</h2><p>B</p></article>` the level-2..4 heading texts before
the run are exactly `T`, and after the run the `h2` element's text has the
inserted wrapper markup in front of it, so the multiset of heading texts
changes.  (The split delimiter captures only the heading opening tag, so the
re-wrap inserts the info-box opener between the opening tag and the heading
text.) -/
theorem c1_heading_texts_not_preserved :
    headingTextsSpec "<article><h2>T</h2><p>B</p></article>".toList = ["T".toList] ∧
    (segmenter "<article><h2>T</h2><p>B</p></article>".toList).map headingTextsSpec
      = some ["\n<div class=\"info-box\">\nT".toList] ∧
    (segmenter "<article><h2>T</h2><p>B</p></article>".toList).map headingTextsSpec
      ≠ some (headingTextsSpec "<article><h2>T</h2><p>B</p></article>".toList) := by
  refine ⟨by decide, by decide, by decide⟩

/-- Claim C2, counterexample: the Segmenter is not idempotent.  On
`<article><h2>T</h2><p>B</p></article>` the second run appends an extra
`\n</div>\n</article>` to the first run's output, because the first output
keeps the original `</article>` inside the wrapped body and appends a new
one, so the second run's lazy article region ends earlier. -/
theorem c2_not_idempotent :
    (segmenter "<article><h2>T</h2><p>B</p></article>".toList).bind segmenter
      ≠ segmenter "<article><h2>T</h2><p>B</p></article>".toList := by
  decide

/-- Claim C2 (amended): on a document whose article region contains no
h1..h4 heading opening tag, whose text after the article region contains no
further article region, and in which the internal placeholder occurs only at
the spliced position, the Segmenter run is the identity — hence trivially
idempotent on such documents. -/
theorem c2_identity_on_headingless
    (content pre mid post : List Char)
    (h1 : findArticleSplit content = some (pre, mid, post))
    (h2 : noHeads (artOpen ++ mid ++ artClose) = true)
    (h3 : findArticleSplit post = none)
    (h4 : splitFirst placeholderTok (pre ++ placeholderTok ++ post) = some (pre, post))
    (h5 : splitFirst placeholderTok post = none) :
    segmenter content = some content := by
  have hc := findArticleSplit_eq h1
  have hseg : segmenter content
      = some (replaceAll placeholderTok
          (fixClose (newArticle (artOpen ++ mid ++ artClose))) (subAllArticle content)) := by
    unfold segmenter
    rw [h1]
  have hna : newArticle (artOpen ++ mid ++ artClose) = artOpen ++ mid ++ artClose :=
    newArticle_noHeads _ h2
  have hfix : fixClose (artOpen ++ mid ++ artClose) = artOpen ++ mid ++ artClose := by
    have := fixClose_of_artClose (artOpen ++ mid)
    simpa [List.append_assoc] using this
  have hsub : subAllArticle content = pre ++ placeholderTok ++ post := by
    unfold subAllArticle
    exact subAllArticleAux_single content.length content pre mid post h1 h3
  rw [hseg, hna, hfix, hsub]
  unfold replaceAll
  rw [replaceAllAux_single (pre ++ placeholderTok ++ post).length _ pre post h4 h5]
  rw [hc]
  simp [List.append_assoc]

/-- Claim C2, witness for the amended theorem: the heading-free document
`<article><p>B</p></article>` is left unchanged by the Segmenter. -/
theorem c2_identity_witness :
    segmenter "<article><p>B</p></article>".toList
      = some "<article><p>B</p></article>".toList :=
  c2_identity_on_headingless "<article><p>B</p></article>".toList [] "<p>B</p>".toList []
    (by decide) (by decide) (by decide) (by decide) (by decide)

/-- Claim C3, counterexample: on
`<article><h2>Title</h2><p>Hello&nbsp;world</p></article>` the extractor
does not return `Title\nHello world`. -/
theorem c3_counterexample :
    extract_article_text "<article><h2>Title</h2><p>Hello&nbsp;world</p></article>".toList
      ≠ "Title\nHello world".toList := by
  decide

/-- Claim C3 (amended): on that input the extractor returns the single line
`Title Hello world` — the `&nbsp;` entity is decoded to a space and all tags
are removed, but the whitespace-collapsing step replaces the block-end
newline with a space before the space-padded-newline normalization runs, so
a space rather than a newline separates `Title` from `Hello`. -/
theorem c3_single_line_extraction :
    extract_article_text "<article><h2>Title</h2><p>Hello&nbsp;world</p></article>".toList
      = "Title Hello world".toList := by
  decide

/-- Claim C4: a segment whose heading text contains the Quiz marker is not
left raw.  On `<article><h2>Quiz</h2><p>Q</p></article>` the split captures
only the opening tag `<h2>` as the heading, the text `Quiz` stays in the
body, the membership tests on the opening tag both fail, and the body is
wrapped in an info-box block (the input contains no info-box marker, the
output does). -/
theorem c4_quiz_body_wrapped :
    segmenter "<article><h2>Quiz</h2><p>Q</p></article>".toList
      = some "<article><h2>\n<div class=\"info-box\">\nQuiz</h2><p>Q</p></article>\n</div>\n</article>".toList ∧
    containsSub infoOpenTag "<article><h2>Quiz</h2><p>Q</p></article>".toList = false ∧
    (segmenter "<article><h2>Quiz</h2><p>Q</p></article>".toList).map (containsSub infoOpenTag)
      = some true := by
  refine ⟨by decide, by decide, by decide⟩

/-- Claim C5: the wrapper-strip loop fully collapses the doubly nested
redundant wrapper `<div class="info-box"><div class="info-box">X</div></div>`
to `X`. -/
theorem c5_wrapper_strip_collapses :
    stripInfoLoop "<div class=\"info-box\"><div class=\"info-box\">X</div></div>".toList
      = "X".toList := by
  decide

/-- Claim C6: the Segmenter aborts without writing (result `none`) exactly
when the document has no article container region — container-not-found is
its only error condition; whenever the region exists the run produces
output. -/
theorem c6_abort_iff_no_container (content : List Char) :
    segmenter content = none ↔ findArticleSplit content = none := by
  unfold segmenter
  cases h : findArticleSplit content with
  | none => simp
  | some p =>
    obtain ⟨a, b, c⟩ := p
    simp

/-- Claim C6, witness: on a document with no article region the Segmenter
aborts. -/
theorem c6_witness : segmenter "<p>no article</p>".toList = none :=
  (c6_abort_iff_no_container "<p>no article</p>".toList).mpr (by decide)

/-- Claim C7: when the input has no article container region (the search for
the region fails), the extractor returns the empty string and no error is
raised (the function is total). -/
theorem c7_empty_on_no_container (html : List Char)
    (h : findArticleInner html = none) :
    extract_article_text html = [] := by
  unfold extract_article_text
  rw [h]

/-- Claim C7, witness: a concrete containerless input. -/
theorem c7_witness : extract_article_text "no container here".toList = [] :=
  c7_empty_on_no_container "no container here".toList (by decide)

/-- Claim C8, counterexample: the Span Stripper is not idempotent.  On a
podcast-section block containing a nested decorated-term span, each run
removes one nesting level, so the second run changes the content again. -/
theorem c8_not_idempotent_nested :
    cleanContent (cleanContent "<div class=\"podcast-section\"><span class=\"legal-term\"><span class=\"legal-term\">x</span></span></div>\n</div>".toList)
      ≠ cleanContent "<div class=\"podcast-section\"><span class=\"legal-term\"><span class=\"legal-term\">x</span></span></div>\n</div>".toList := by
  decide

/-- Claim C8 (amended): the write guard holds — on a run where no
replacement occurs (`cleanContent` is the identity on the content) the
function returns `False` and the document on disk is unchanged; and on a
document containing neither a podcast-section nor a quiz-container opening
marker the run makes no replacement at all, so stripping twice equals
stripping once there.  Full idempotence fails for nested decorated-term
spans. -/
theorem c8_write_guard (c : List Char) :
    (cleanContent c = c → clean_file c = (false, c)) ∧
    (containsSub podOpenTok c = false → containsSub quizOpenTok c = false →
      clean_file c = (false, c) ∧ cleanContent (cleanContent c) = cleanContent c) := by
  constructor
  · intro h
    unfold clean_file
    simp [h]
  · intro hp hq
    have h := cleanContent_no_marker c hp hq
    constructor
    · unfold clean_file
      simp [h]
    · rw [h, h]

/-- Claim C8, witness: on `hello` (no blocks, no spans) the cleaner reports
no change, leaves the content alone, and a second run agrees with the
first. -/
theorem c8_write_guard_witness :
    clean_file "hello".toList = (false, "hello".toList) ∧
    cleanContent (cleanContent "hello".toList) = cleanContent "hello".toList :=
  ⟨(c8_write_guard "hello".toList).1 (by decide),
    ((c8_write_guard "hello".toList).2 (by decide) (by decide)).2⟩

/-- Claim C9: the depth audit of the balanced four-line input `<div>`,
`<div>`, `</div>`, `</div>` ends with the running counter at 0 and emits no
heading records. -/
theorem c9_balanced_divs_depth_zero :
    depthScan ["<div>".toList, "<div>".toList, "</div>".toList, "</div>".toList]
      = (0, []) := by
  decide

/-- Claim C10: the extractor's output never contains a newline: the
whitespace-collapsing step turns every whitespace run — including all
newlines inserted for block-tag boundaries — into a single space, the
space-padded-newline step can only re-emit newlines already present, and
the final strip only removes characters. -/
theorem c10_output_single_line (html : List Char) :
    '\n' ∉ extract_article_text html := by
  unfold extract_article_text
  cases h : findArticleInner html with
  | none => simp
  | some raw =>
    intro hm
    have h1 := pyStrip_subset _ _ hm
    exact padNlAux_no_newline _ false 0 (collapseWsAux_no_newline _ false) h1

/-- Claim C10, witness: instantiation at a document whose article region
contains block boundaries and nested markup. -/
theorem c10_witness :
    '\n' ∉ extract_article_text "<article><h2>A</h2><p>x</p><div>y</div></article>".toList :=
  c10_output_single_line "<article><h2>A</h2><p>x</p><div>y</div></article>".toList
